import Mathlib

/-!
Verification development for the wdio spec reporter.

The definitions below are a shallow embedding of the reporter class in
src/unnamed/part_000 (the variant with the `unvalidated` bucket, the
`skipped` summary label and `cleanStack`); src/lib/reporter.js is a
near-duplicate whose handlers for the events modelled here have the same
state effects (it names the last tally bucket `unverified` and the instant
flag `instantReport`).

Modelling conventions:
- JS objects used as maps (`this.results`, `this.indents`, `this.specs`,
  `this.suiteIndents`) are modelled as total functions from String with a
  zero/default value for absent keys.
- Counters are Nat (they are only ever incremented or reset to 0); the
  per-session indent depth is Int because the `suite:end` handler decrements
  it unconditionally.
- The host collaborators (`baseReporter.color`, `baseReporter.symbols.ok`,
  the humanize-duration routine) are out of scope per the spec and appear as
  function/string parameters.
- Printing (console.log / baseReporter.log) has no reporter-state effect and
  is not modelled, except that in instant mode `printTest` calls `getSymbol`,
  whose effect on `errorCount` is modelled.
- The fields `currentSuite`, `currentTest`, `retryCount` and the step
  indentation state are only read by printing paths and are not modelled.
-/

/-- Result tally of one runner session (`this.results[cid]`), as initialised
by the `runner:start` and `startSpecs` handlers. The reporter.js variant
names the last bucket `unverified` instead of `unvalidated`. -/
structure Tally where
  passing : Nat
  pending : Nat
  failing : Nat
  broken : Nat
  unvalidated : Nat
deriving DecidableEq, Repr

/-- Tally with all five buckets zero, as written literally in the
`runner:start` and `startSpecs` handlers. -/
def zeroTally : Tally := ⟨0, 0, 0, 0, 0⟩

/-- Sum of all five buckets of a tally. -/
def totalTally (t : Tally) : Nat :=
  t.passing + t.pending + t.failing + t.broken + t.unvalidated

/-- Mutable reporter state: the fields set in the constructor that the
modelled event handlers and renderers read or write. `statsCountsPending`
models `this.baseReporter.stats.counts.pending`, which `getResultList`
increments in the part_000 variant. -/
structure RState where
  errorCount : Nat
  failureCount : Nat
  indents : String → Int
  suiteIndents : String → String → Int
  specs : String → String
  results : String → Tally
  startedSpecs : Bool
  statsCountsPending : Nat

/-- Reporter state right after the constructor ran: counters zero, empty
maps (absent keys modelled as zero defaults), `startedSpecs` false. -/
def initialState : RState :=
  { errorCount := 0
    failureCount := 0
    indents := fun _ => 0
    suiteIndents := fun _ _ => 0
    specs := fun _ => ""
    results := fun _ => zeroTally
    startedSpecs := false
    statsCountsPending := 0 }

/-- Configuration and host-collaborator inputs that influence the modelled
state transitions: `reportResultsInstantly` (instant mode), the theme glyph
`baseReporter.symbols.ok` consumed by `getSymbol`, and the external
`baseReporter.color` and humanize-duration routines, which the buffered
`runner:end` rendering pipeline passes through (they do not affect the
counters, but the rendering functions take them as arguments). -/
structure Config where
  reportResultsInstantly : Bool
  symbolsOk : String
  colorFn : Option String → String → String
  humanize : Nat → String

/-- Embedding of `getSymbol(state)` (part_000 lines 275-301). It returns
the rendered glyph together with the new value of `this.errorCount`; the
fail, broken and default switch branches have the same body. The initial
`let symbol = escaped-question-mark` in the source is dead (every branch
assigns). -/
def getSymbol (okSym : String) (errorCount : Nat) (state : String) : String × Nat :=
  if state = "pass" then (okSym, errorCount)
  else if state = "pending" then ("-", errorCount)
  else if state = "fail" then (toString (errorCount + 1) ++ ")", errorCount + 1)
  else if state = "broken" then (toString (errorCount + 1) ++ ")", errorCount + 1)
  else (toString (errorCount + 1) ++ ")", errorCount + 1)

/-- Embedding of `getColor(state)` (part_000 lines 303-327); `none` models
the `null` returned for an unknown state. -/
def getColor (state : String) : Option String :=
  if state = "pass" ∨ state = "passing" then some "green"
  else if state = "pending" then some "pending"
  else if state = "fail" ∨ state = "failing" then some "fail"
  else if state = "unvalidated" then some "unvalidated"
  else if state = "broken" then some "broken"
  else none

/-- Embedding of `getPhase()` (part_000 lines 540-546). -/
def getPhase (st : RState) : String :=
  if st.startedSpecs then "[SPEC] " else "[TESTCASE] "

/-- Pointwise update of a String-keyed tally map. -/
def updTally (f : String → Tally) (k : String) (v : Tally) : String → Tally :=
  fun k' => if k' = k then v else f k'

/-- Pointwise update of a String-keyed Int map. -/
def updInt (f : String → Int) (k : String) (v : Int) : String → Int :=
  fun k' => if k' = k then v else f k'

/-- Does the pattern occur at the head of the character list? -/
def listStarts : List Char → List Char → Bool
  | [], _ => true
  | _ :: _, [] => false
  | p :: ps, c :: cs => if p = c then listStarts ps cs else false

/-- Does the pattern occur anywhere in the character list? -/
def listContains (pat : List Char) : List Char → Bool
  | [] => listStarts pat []
  | c :: cs => if listStarts pat (c :: cs) then true else listContains pat cs

/-- JS `s.indexOf(pat) > -1`: substring containment. -/
def strContains (s pat : String) : Bool :=
  listContains pat.toList s.toList

/-- JS `s.indexOf(pat) === 0` and `s.startsWith(pat)`: pattern at the
start of the string (kernel-computable equivalent of the byte-position
based core function). -/
def strStarts (s pat : String) : Bool :=
  listStarts pat.toList s.toList

/-- JS `s.trim()`: strip whitespace from both ends (kernel-computable). -/
def strTrim (s : String) : String :=
  String.mk (((s.data.dropWhile Char.isWhitespace).reverse.dropWhile Char.isWhitespace).reverse)

/-- Split on newline characters, accumulating the current line in reverse. -/
def splitLinesAux : List Char → List Char → List String
  | [], acc => [String.mk acc.reverse]
  | c :: cs, acc =>
    if c = '\n' then String.mk acc.reverse :: splitLinesAux cs []
    else splitLinesAux cs (c :: acc)

/-- JS `s.split(/\n/g)` (also `splitOn` with a newline separator):
the list of lines of a string, kernel-computable. -/
def splitLines (s : String) : List String :=
  splitLinesAux s.data []

/-- Repeat a separator string n times (helper for the JS Array-join idiom). -/
def sepRepeat (sep : String) : Nat → String
  | 0 => ""
  | n + 1 => sep ++ sepRepeat sep n

/-- JS `Array(n).join(sep)`: n empty slots joined by sep, i.e. sep repeated
n-1 times; empty for n = 0 and n = 1 (Nat subtraction truncates). -/
def jsArrayJoin (n : Nat) (sep : String) : String := sepRepeat sep (n - 1)

/-- Embedding of `indent(cid, uid)` (part_000 lines 255-258). A depth that
was never recorded reads as the default 0 (in JS it would be undefined and
the strict comparison with 0 would fail; no claim depends on that case).
A negative depth, impossible for recorded values, maps to the empty string
via `Int.toNat`. -/
def indent (st : RState) (cid uid : String) : String :=
  let d := st.suiteIndents cid uid
  if d = 0 then "" else jsArrayJoin d.toNat "    "

/-- Recursion of `getSummary` over the per-state entries, threading the
`displayedDuration` flag (part_000 lines 395-428). `cf` is
`baseReporter.color`, `hz` the humanize-duration routine. -/
def getSummaryGo (cf : Option String → String → String) (hz : Nat → String)
    (duration : Nat) (pre : String) : Bool → List (String × Nat) → String
  | _, [] => ""
  | displayedDuration, (state, testCount) :: rest =>
    if testCount = 0 then getSummaryGo cf hz duration pre displayedDuration rest
    else
      let testDuration := if displayedDuration then "" else " (" ++ hz duration ++ ")"
      let printedState := if state = "pending" then "skipped" else state
      (pre ++ " " ++ cf (getColor state) (toString testCount) ++ " "
          ++ cf (getColor state) printedState ++ testDuration ++ "\n")
        ++ getSummaryGo cf hz duration pre true rest

/-- Embedding of `getSummary(states, duration, preface)`. The `for in` loop
over `this.results[cid]` visits the object keys in insertion order, which is
the order of `tallyList`. -/
def getSummary (cf : Option String → String → String) (hz : Nat → String)
    (states : List (String × Nat)) (duration : Nat) (pre : String) : String :=
  getSummaryGo cf hz duration pre false states

/-- Insertion-ordered key/value view of a tally object, as the `for in`
loop of `getSummary` sees `this.results[cid]`. -/
def tallyList (t : Tally) : List (String × Nat) :=
  [("passing", t.passing), ("pending", t.pending), ("failing", t.failing),
   ("broken", t.broken), ("unvalidated", t.unvalidated)]

/-- One rendered summary line of `getSummary`, with the duration suffix
passed in explicitly (empty for every line but the first emitted one). -/
def summaryLine (cf : Option String → String → String) (pre : String)
    (p : String × Nat) (durSuffix : String) : String :=
  pre ++ " " ++ cf (getColor p.1) (toString p.2) ++ " "
    ++ cf (getColor p.1) (if p.1 = "pending" then "skipped" else p.1)
    ++ durSuffix ++ "\n"

/-- A test record as `getResultList` reads it from the host suite tree:
title and current state tag (empty string when unset). -/
structure TestRec where
  title : String
  state : String
deriving DecidableEq, Repr

/-- A suite node of the host result tree: title and its tests in key order. -/
structure Suite where
  title : String
  tests : List (String × TestRec)
deriving DecidableEq, Repr

/-- Inner loop of `getResultList` over `spec.tests` (part_000 lines
373-387): a test with unset state is counted as pending (bumping both the
session tally and `stats.counts.pending`) and rendered with state
`pending`; rendering calls `getSymbol`, whose `errorCount` effect is kept. -/
def processTests (cf : Option String → String → String) (cfg : Config)
    (cid pre ind : String) : RState → List (String × TestRec) → String → RState × String
  | st, [], out => (st, out)
  | st, (_, test) :: rest, out =>
    let stTag := test.state
    let p :=
      if stTag = "" then
        let t := st.results cid
        ({ st with
            results := updTally st.results cid { t with pending := t.pending + 1 }
            statsCountsPending := st.statsCountsPending + 1 }, "pending")
      else (st, stTag)
    let st := p.1
    let stTag := p.2
    let sy := getSymbol cfg.symbolsOk st.errorCount stTag
    let st := { st with errorCount := sy.2 }
    let out := out ++ pre ++ "   " ++ ind ++ cf (getColor stTag) sy.1 ++ " " ++ test.title ++ "\n"
    processTests cf cfg cid pre ind st rest out

/-- Outer loop of `getResultList` over the suites map (part_000 lines
359-390). A suite uid starting with the quoted words before all is skipped
by the `continue` at the top of the loop body; the second check guarding
the title line is kept although it is always true after that `continue`. -/
def getResultListGo (cf : Option String → String → String) (cfg : Config)
    (cid pre : String) : RState → List (String × Suite) → String → String × RState
  | st, [], out => (out, st)
  | st, (specUid, spec) :: rest, out =>
    if strStarts specUid "\"before all\"" then
      getResultListGo cf cfg cid pre st rest out
    else
      let ind := indent st cid specUid
      let specTitle := spec.title
      let out :=
        if !(strStarts specUid "\"before all\"") then
          out ++ pre ++ " " ++ ind ++ specTitle ++ "\n"
        else out
      let q := processTests cf cfg cid pre ind st spec.tests out
      getResultListGo cf cfg cid pre q.1 rest (q.2 ++ strTrim pre ++ "\n")

/-- Embedding of `getResultList(cid, suites, preface)` (part_000 lines
356-393), returning the rendered block and the updated reporter state. -/
def getResultList (cf : Option String → String → String) (cfg : Config)
    (st : RState) (cid : String) (suites : List (String × Suite)) (pre : String) :
    String × RState :=
  getResultListGo cf cfg cid pre st suites ""

/-- JS truthiness of a possibly-absent string: undefined and the empty
string are falsy, every other string is truthy. -/
def truthy : Option String → Bool
  | none => false
  | some s => if s = "" then false else true

/-- JS `a || b` on possibly-absent strings. -/
def jsOr (a b : Option String) : Option String :=
  if truthy a then a else b

/-- JS string coercion of a possibly-absent string inside a template
literal: undefined prints as the word undefined. -/
def jsToString : Option String → String
  | none => "undefined"
  | some s => s

/-- JS `s.replace(pat, repl)` with a string pattern: replaces only the
first occurrence. -/
def jsReplaceOnce (s pat repl : String) : String :=
  match s.splitOn pat with
  | [] => s
  | [x] => x
  | x :: xs => x ++ repl ++ String.intercalate pat xs

/-- Capability record consumed by `getBrowserCombo`; every field may be
absent. -/
structure Caps where
  deviceName : Option String
  browserName : Option String
  browser : Option String
  version : Option String
  platformVersion : Option String
  browser_version : Option String
  os : Option String
  os_version : Option String
  platform : Option String
  platformName : Option String
  app : Option String
deriving DecidableEq, Repr

/-- Embedding of `getBrowserCombo(caps, verbose)` (part_000 lines 329-354),
including the JS artifacts: string concatenation with an undefined field
prints the word undefined, and only the verbose mobile form and the
non-verbose desktop form are trimmed. -/
def getBrowserCombo (caps : Caps) (verbose : Bool) : String :=
  let device := caps.deviceName
  let browser := jsOr caps.browserName caps.browser
  let version := jsOr caps.version (jsOr caps.platformVersion caps.browser_version)
  let platform :=
    if truthy caps.os then some (jsToString caps.os ++ " " ++ jsToString caps.os_version)
    else jsOr caps.platform caps.platformName
  if truthy device then
    let appStr := jsToString (jsOr caps.app (some ""))
    let program := jsOr (some (jsReplaceOnce appStr "sauce-storage:" "")) caps.browserName
    let executing := if truthy program then "executing " ++ jsToString program else ""
    if !verbose then
      jsToString device ++ " " ++ jsToString platform ++ " " ++ jsToString version
    else
      (jsToString device ++ " on " ++ jsToString platform ++ " " ++ jsToString version
        ++ " " ++ executing) |> strTrim
  else
    if !verbose then
      (jsToString browser ++ " " ++ (if truthy version then jsToString version else "")
        ++ " " ++ (if truthy platform then jsToString platform else "")) |> strTrim
    else
      jsToString browser
        ++ (if truthy version then " (v" ++ jsToString version ++ ")" else "")
        ++ (if truthy platform then " on " ++ jsToString platform else "")

/-- An error object attached to a failing test: message, optional stack,
optional assertion-matcher name. -/
structure ErrRec where
  message : String
  stack : Option String
  matcherName : Option String
deriving DecidableEq, Repr

/-- A failing test as delivered by `stats.getFailures()`: filter keys,
display title, unvalidated flag and its error objects (an absent `errs`
array behaves like an empty one: both take the `else` branch printing
`test.err`). -/
structure FailTest where
  cid : String
  runnerKeys : List String
  printTitle : String
  unvalidated : Bool
  errs : List ErrRec
  err : ErrRec
deriving DecidableEq, Repr

/-- The `printErr` closure inside `getFailureList` (part_000 lines
438-456): pick the message color, trim the message, color each message
line, then each stack line when a stack is present, with a blank line
after. -/
def printErr (cf : Option String → String → String) (unval : Bool) (e : ErrRec) : String :=
  let errMessageColor :=
    if e.matcherName = none ∧ truthy e.stack then "bright yellow" else "error message"
  let errMessageColor := if unval then "unvalidated" else errMessageColor
  let msg := strTrim e.message
  let message := String.intercalate "\n" ((splitLines msg).map (fun l => cf (some errMessageColor) l))
  let out := message ++ "\n"
  let out := out ++
    (if truthy e.stack then
      String.intercalate "\n"
        ((splitLines (jsToString e.stack)).map (fun l => cf (some "error stack") l)) ++ "\n"
    else "")
  out ++ "\n"

/-- Loop of `getFailureList` (part_000 lines 430-468), threading
`this.failureCount`: each failure gets a numbered, colored title header
followed by its printed errors. -/
def getFailureListGo (cf : Option String → String → String) :
    Nat → List FailTest → String → String × Nat
  | fc, [], out => (out, fc)
  | fc, test :: rest, out =>
    let fc := fc + 1
    let out := out ++ "\n"
    let out := out ++ cf (some "error title") (toString fc ++ ") " ++ strTrim test.printTitle ++ ":") ++ "\n\n"
    let out := out ++
      (if test.errs.length > 0 then String.join (test.errs.map (printErr cf test.unvalidated))
       else printErr cf test.unvalidated test.err)
    getFailureListGo cf fc rest out

/-- Embedding of `getFailureList(failures, preface)`; returns the rendered
block and the new `failureCount`. -/
def getFailureList (cf : Option String → String → String)
    (fc : Nat) (failures : List FailTest) : String × Nat :=
  getFailureListGo cf fc failures ""

/-- Embedding of `getJobLink(results, preface)` (part_000 lines 470-483). -/
def getJobLink (sessionID configHost : Option String) (pre : String) : String :=
  if !(truthy configHost) then ""
  else if strContains (jsToString configHost) "saucelabs.com" then
    strTrim pre ++ "\n" ++ pre ++ " Check out job at https://saucelabs.com/tests/"
      ++ jsToString sessionID ++ "\n"
  else ""

/-- The per-spec data `stats.runners[cid].specs[specHash]` that
`getSuiteResult` reads: the suites map in key order and `_duration`. -/
structure SpecData where
  suites : List (String × Suite)
  duration : Nat
deriving DecidableEq, Repr

/-- The host data `getSuiteResult` reads for one runner: session id,
capabilities, `results.config.host`, the spec data and the unfiltered
failure list from `stats.getFailures()`. -/
structure RunnerData where
  sessionID : Option String
  capabilities : Caps
  configHost : Option String
  specData : SpecData
  failures : List FailTest
deriving DecidableEq, Repr

/-- The 66-dash separator rule used by `getSuiteResult`. -/
def sepRule : String :=
  "------------------------------------------------------------------\n"

/-- Embedding of `getSuiteResult(runner)` (part_000 lines 548-588),
returning the composed block and the updated reporter state (the
`errorCount`, tally and `failureCount` effects of `getResultList` and
`getFailureList`). The summary reads `this.results[cid]` after
`getResultList` has backfilled pending counts. -/
def getSuiteResult (cf : Option String → String → String) (hz : Nat → String)
    (cfg : Config) (st : RState) (cid : String) (rd : RunnerData) : String × RState :=
  let pre := getPhase st
  let spec := rd.specData
  let combo := getBrowserCombo rd.capabilities true
  let failures := rd.failures.filter (fun f => f.cid == cid || f.runnerKeys.contains cid)
  if spec.suites.length = 0 then ("", st)
  else
    let output := sepRule
    let output := output ++
      (if truthy rd.sessionID then pre ++ " Session ID: " ++ jsToString rd.sessionID ++ "\n"
       else "")
    let output := output ++
      (if st.startedSpecs then getPhase st ++ " Spec File: " ++ st.specs cid ++ "\n"
       else getPhase st ++ " Testcase File: " ++ st.specs cid ++ "\n"
         ++ getPhase st ++ " Running: " ++ combo ++ "\n")
    let output := output ++ pre ++ "\n"
    let q := getResultList cf cfg st cid spec.suites pre
    let st1 := q.2
    let output := output ++ q.1 ++ pre ++ "\n"
    let output := output ++ getSummary cf hz (tallyList (st1.results cid)) spec.duration pre
    let output := output ++ sepRule
    let r := getFailureList cf st1.failureCount failures
    let st2 := { st1 with failureCount := r.2 }
    let output := output ++ r.1 ++ getJobLink rd.sessionID rd.configHost pre
    (output, st2)

/-- Denotation of the regular expression STACKTRACE_FILTER (part_000 line
11). Because the trailing word-character group is starred, the alternative
for dependency paths matches as soon as the directory name and one path
separator occur; the regex as a whole therefore matches a line exactly when
one of four fixed substrings occurs in it. -/
def stacktraceFilterTest (line : String) : Bool :=
  strContains line "node_modules/" || strContains line "node_modules\\"
    || strContains line "wdio-sync/build" || strContains line "- - - - -"

/-- Embedding of `cleanStack(error)` (part_000 lines 601-606): keep only
the stack lines that do not match the filter and start with the four-space
`at ` call-frame marker, writing the result back into the stack field. An
absent stack is returned unchanged (the JS code would throw there; the
function is only ever applied to errors carrying a stack string). -/
def cleanStack (error : ErrRec) : ErrRec :=
  match error.stack with
  | none => error
  | some s =>
    let stack := splitLines s
    let stack := stack.filter (fun line => !(stacktraceFilterTest line) && strStarts line "    at ")
    { error with stack := some (String.intercalate "\n" stack) }

/-- The events whose handlers mutate the modelled reporter state: phase
start, runner lifecycle (including `runner:end`, whose buffered-mode
rendering via `printSuiteResult` and `getSuiteResult` backfills pending
counts for unset-state tests and advances `errorCount` and
`failureCount`), suite nesting and the five terminal test states. The
`runner:end` payload carries the host data that `getSuiteResult` looks up
from `baseReporter.stats` at handling time. The remaining recognized
events (`runner:init`, `test:setCurrentId`, `step:*`, `retry:*`,
`validate:failure`, `end`) only print, mutate host-owned objects (such as
the error mutated by `validate:failure` through `cleanStack`), or touch
the unmodelled printing-only fields (`currentSuite`, `currentTest`,
`retryCount`, `stepIndents`). -/
inductive Event where
  | startSpecs (cid : String)
  | runnerStart (cid : String) (specsFile : String)
  | suiteStart (cid : String) (uid : String)
  | suiteEnd (cid : String)
  | testPending (cid : String)
  | testPass (cid : String)
  | testFail (cid : String)
  | testBroken (cid : String)
  | testUnvalidated (cid : String)
  | runnerEnd (cid : String) (rd : RunnerData)
deriving DecidableEq, Repr

/-- One event-handler transition of the reporter (constructor handlers in
part_000 lines 53-198). In instant mode the test handlers set
`test.state` and call `printTest`, which calls `getSymbol` on that state;
only the resulting `errorCount` effect is reporter state. The
`runner:end` handler calls `printSuiteResult`, which in buffered mode
renders `getSuiteResult` — keeping its state effects — and in instant
mode does nothing. -/
def step (cfg : Config) (st : RState) (e : Event) : RState :=
  match e with
  | .startSpecs c =>
      if st.startedSpecs then st
      else
        { st with
          results := updTally st.results c zeroTally
          failureCount := 0
          errorCount := 0
          startedSpecs := true }
  | .runnerStart c sp =>
      { st with
        suiteIndents := fun c' => if c' = c then (fun _ => 0) else st.suiteIndents c'
        indents := updInt st.indents c 0
        specs := fun c' => if c' = c then sp else st.specs c'
        results := updTally st.results c zeroTally }
  | .suiteStart c u =>
      let d := st.indents c + 1
      { st with
        indents := updInt st.indents c d
        suiteIndents := fun c' u' =>
          if c' = c then (if u' = u then d else st.suiteIndents c u')
          else st.suiteIndents c' u' }
  | .suiteEnd c =>
      { st with indents := updInt st.indents c (st.indents c - 1) }
  | .testPending c =>
      let t := st.results c
      let st := { st with results := updTally st.results c { t with pending := t.pending + 1 } }
      if cfg.reportResultsInstantly then
        { st with errorCount := (getSymbol cfg.symbolsOk st.errorCount "pending").2 }
      else st
  | .testPass c =>
      let t := st.results c
      let st := { st with results := updTally st.results c { t with passing := t.passing + 1 } }
      if cfg.reportResultsInstantly then
        { st with errorCount := (getSymbol cfg.symbolsOk st.errorCount "pass").2 }
      else st
  | .testFail c =>
      let t := st.results c
      let st := { st with results := updTally st.results c { t with failing := t.failing + 1 } }
      if cfg.reportResultsInstantly then
        { st with errorCount := (getSymbol cfg.symbolsOk st.errorCount "fail").2 }
      else st
  | .testBroken c =>
      let t := st.results c
      let st := { st with results := updTally st.results c { t with broken := t.broken + 1 } }
      if cfg.reportResultsInstantly then
        { st with errorCount := (getSymbol cfg.symbolsOk st.errorCount "broken").2 }
      else st
  | .testUnvalidated c =>
      let t := st.results c
      let st := { st with results := updTally st.results c { t with unvalidated := t.unvalidated + 1 } }
      if cfg.reportResultsInstantly then
        { st with errorCount := (getSymbol cfg.symbolsOk st.errorCount "unvalidated").2 }
      else st
  | .runnerEnd c rd =>
      if !cfg.reportResultsInstantly then
        (getSuiteResult cfg.colorFn cfg.humanize cfg st c rd).2
      else st

/-- Process a list of events in arrival order. -/
def runEvents (cfg : Config) (st : RState) (l : List Event) : RState :=
  List.foldl (step cfg) st l

/-- True for the five terminal test-state events carrying session `c`. -/
def isTerminalFor (c : String) : Event → Bool
  | .testPending c' => if c' = c then true else false
  | .testPass c' => if c' = c then true else false
  | .testFail c' => if c' = c then true else false
  | .testBroken c' => if c' = c then true else false
  | .testUnvalidated c' => if c' = c then true else false
  | _ => false

/-- True for the events whose handler can reset or mutate the tally of
session `c` other than by a terminal-event increment: its own
`runner:start`, a `startSpecs` carrying `c` (effective when the spec phase
has not yet begun), and its own `runner:end` (whose buffered-mode
rendering backfills pending counts for unset-state tests). -/
def touchesTally (c : String) : Event → Bool
  | .runnerStart c' _ => if c' = c then true else false
  | .startSpecs c' => if c' = c then true else false
  | .runnerEnd c' _ => if c' = c then true else false
  | _ => false

/-- True exactly for `startSpecs` events. -/
def isStartSpecs : Event → Bool
  | .startSpecs _ => true
  | _ => false

/-- Well-nested balanced sequences of suite start and end events of one
session, as in the claim about indentation balance: empty, a balanced
block wrapped in one matching start/end pair, or two balanced sequences in
a row. -/
inductive BalancedSeq (c : String) : List Event → Prop where
  | nil : BalancedSeq c []
  | wrap (u : String) (s : List Event) :
      BalancedSeq c s → BalancedSeq c (Event.suiteStart c u :: (s ++ [Event.suiteEnd c]))
  | app (s t : List Event) :
      BalancedSeq c s → BalancedSeq c t → BalancedSeq c (s ++ t)

/-- Concrete colorizer for witnesses: returns the text unchanged. -/
def cf0 : Option String → String → String := fun _ s => s

/-- Concrete humanizer for witnesses. -/
def hz0 : Nat → String := fun n => toString n ++ "ms"

/-- Concrete configuration for witnesses: buffered mode, plain ok glyph,
identity colorizer and plain humanizer. -/
def cfg0 : Config :=
  { reportResultsInstantly := false, symbolsOk := "ok", colorFn := cf0, humanize := hz0 }

/-- Concatenation of a list of rendered lines. -/
def strConcat : List String → String
  | [] => ""
  | s :: rest => s ++ strConcat rest

theorem getSymbol_snd (okSym : String) (ec : Nat) (s : String) :
    (getSymbol okSym ec s).2 = if s = "pass" ∨ s = "pending" then ec else ec + 1 := by
  unfold getSymbol
  split_ifs <;> simp_all

theorem getSymbol_foldl (okSym : String) :
    ∀ (states : List String) (ec : Nat),
      List.foldl (fun n s => (getSymbol okSym n s).2) ec states
        = ec + (states.filter (fun s => !(s == "pass") && !(s == "pending"))).length := by
  intro states
  induction states with
  | nil => intro ec; simp
  | cons s rest ih =>
    intro ec
    simp only [List.foldl_cons, List.filter_cons]
    rw [getSymbol_snd]
    by_cases h1 : s = "pass"
    · simp [h1, ih]
    · by_cases h2 : s = "pending"
      · simp [h1, h2, ih]
      · simp only [h1, h2, or_self, if_false]
        rw [ih (ec + 1)]
        simp [h1, h2]
        omega

/-- C2: a `getSymbol` call with state fail, broken or any unrecognized
state increments the shared `errorCount` by exactly one and returns the
new value rendered as a number followed by a closing parenthesis; calls
with pass and pending leave the counter unchanged and return the theme ok
glyph and the dash; folded over any call sequence the counter grows by
exactly the number of failure-path calls, in call order. -/
theorem c2_getSymbol_failure_counter (okSym : String) (ec : Nat) :
    getSymbol okSym ec "pass" = (okSym, ec) ∧
    getSymbol okSym ec "pending" = ("-", ec) ∧
    (∀ s : String, s ≠ "pass" → s ≠ "pending" →
      getSymbol okSym ec s = (toString (ec + 1) ++ ")", ec + 1)) ∧
    (∀ states : List String,
      List.foldl (fun n s => (getSymbol okSym n s).2) ec states
        = ec + (states.filter (fun s => !(s == "pass") && !(s == "pending"))).length) := by
  refine ⟨by simp [getSymbol], by simp [getSymbol], ?_, fun states => getSymbol_foldl okSym states ec⟩
  intro s h1 h2
  unfold getSymbol
  rw [if_neg h1, if_neg h2]
  split_ifs <;> rfl

/-- Witness for C2 at the unrecognized state, with counter value 5. -/
theorem c2_getSymbol_failure_counter_witness :
    getSymbol "ok" 5 "weird" = (toString (5 + 1) ++ ")", 5 + 1) :=
  (c2_getSymbol_failure_counter "ok" 5).2.2.1 "weird" (by decide) (by decide)

theorem sepRepeat_spaces (n : Nat) :
    sepRepeat "    " n = String.mk (List.replicate (4 * n) ' ') := by
  induction n with
  | zero => decide
  | succ k ih =>
    have happ : ∀ a b : List Char, String.mk a ++ String.mk b = String.mk (a ++ b) :=
      fun a b => rfl
    have h4 : "    " = String.mk (List.replicate 4 ' ') := by decide
    have hlen : 4 + 4 * k = 4 * (k + 1) := by ring
    calc sepRepeat "    " (k + 1) = "    " ++ sepRepeat "    " k := rfl
      _ = String.mk (List.replicate 4 ' ') ++ String.mk (List.replicate (4 * k) ' ') := by
          rw [← h4, ih]
      _ = String.mk (List.replicate 4 ' ' ++ List.replicate (4 * k) ' ') := happ _ _
      _ = String.mk (List.replicate (4 + 4 * k) ' ') := by rw [List.replicate_add]
      _ = String.mk (List.replicate (4 * (k + 1)) ' ') := by rw [hlen]

/-- C5: for a recorded depth d, `indent` renders the empty string at depth
0 and depth 1, and exactly 4*(d-1) spaces for d at least 1. -/
theorem c5_indent_off_by_one (st : RState) (cid uid : String) (d : Nat)
    (h : st.suiteIndents cid uid = (d : Int)) :
    (d = 0 ∨ d = 1 → indent st cid uid = "") ∧
    (1 ≤ d → indent st cid uid = String.mk (List.replicate (4 * (d - 1)) ' ')) := by
  constructor
  · rintro (rfl | rfl)
    · simp [indent, h]
    · simp [indent, h, jsArrayJoin, sepRepeat]
  · intro hd
    obtain ⟨k, rfl⟩ : ∃ k, d = k + 1 := ⟨d - 1, by omega⟩
    have hne : ((k + 1 : Nat) : Int) ≠ 0 := by
      exact_mod_cast Nat.succ_ne_zero k
    simp only [indent, h]
    rw [if_neg hne]
    have htn : ((k + 1 : Nat) : Int).toNat = k + 1 := by
      simp
    simp only [jsArrayJoin, htn, Nat.add_sub_cancel]
    rw [sepRepeat_spaces]

/-- Witness for C5 at depth 3: eight spaces. -/
theorem c5_indent_off_by_one_witness :
    indent { initialState with suiteIndents := fun _ _ => (3 : Int) } "0" "u"
      = String.mk (List.replicate (4 * (3 - 1)) ' ') :=
  (c5_indent_off_by_one { initialState with suiteIndents := fun _ _ => (3 : Int) }
    "0" "u" 3 rfl).2 (by decide)

theorem processTests_results_other (cf : Option String → String → String) (cfg : Config)
    (cid pre ind : String) (c : String) (hne : c ≠ cid) :
    ∀ (tests : List (String × TestRec)) (st : RState) (out : String),
      ((processTests cf cfg cid pre ind st tests out).1).results c = st.results c := by
  intro tests
  induction tests with
  | nil => intro st out; rfl
  | cons t rest ih =>
    obtain ⟨uid, test⟩ := t
    intro st out
    by_cases h : test.state = ""
    · simp only [processTests, h, if_pos rfl]
      rw [ih]
      simp [updTally, hne]
    · simp only [processTests, h, if_neg h]
      rw [ih]
      simp

theorem getResultListGo_results_other (cf : Option String → String → String) (cfg : Config)
    (cid pre : String) (c : String) (hne : c ≠ cid) :
    ∀ (suites : List (String × Suite)) (st : RState) (out : String),
      ((getResultListGo cf cfg cid pre st suites out).2).results c = st.results c := by
  intro suites
  induction suites with
  | nil => intro st out; rfl
  | cons p rest ih =>
    obtain ⟨uid, sp⟩ := p
    intro st out
    by_cases h : strStarts uid "\"before all\"" = true
    · simp only [getResultListGo, h, if_true]
      exact ih st out
    · have hb : strStarts uid "\"before all\"" = false := by
        simpa using h
      simp only [getResultListGo, hb, Bool.false_eq_true, if_false]
      rw [ih, processTests_results_other cf cfg cid pre (indent st cid uid) c hne]

theorem getSuiteResult_results_other (cf : Option String → String → String) (hz : Nat → String)
    (cfg : Config) (st : RState) (cid : String) (rd : RunnerData)
    (c : String) (hne : c ≠ cid) :
    ((getSuiteResult cf hz cfg st cid rd).2).results c = st.results c := by
  by_cases hlen : rd.specData.suites.length = 0
  · simp [getSuiteResult, hlen]
  · simp only [getSuiteResult, if_neg hlen, getResultList]
    exact getResultListGo_results_other cf cfg cid (getPhase st) c hne rd.specData.suites st ""

theorem processTests_startedSpecs (cf : Option String → String → String) (cfg : Config)
    (cid pre ind : String) :
    ∀ (tests : List (String × TestRec)) (st : RState) (out : String),
      ((processTests cf cfg cid pre ind st tests out).1).startedSpecs = st.startedSpecs := by
  intro tests
  induction tests with
  | nil => intro st out; rfl
  | cons t rest ih =>
    obtain ⟨uid, test⟩ := t
    intro st out
    by_cases h : test.state = ""
    · simp only [processTests, h, if_pos rfl]
      rw [ih]
      simp
    · simp only [processTests, h, if_neg h]
      rw [ih]
      simp

theorem getResultListGo_startedSpecs (cf : Option String → String → String) (cfg : Config)
    (cid pre : String) :
    ∀ (suites : List (String × Suite)) (st : RState) (out : String),
      ((getResultListGo cf cfg cid pre st suites out).2).startedSpecs = st.startedSpecs := by
  intro suites
  induction suites with
  | nil => intro st out; rfl
  | cons p rest ih =>
    obtain ⟨uid, sp⟩ := p
    intro st out
    by_cases h : strStarts uid "\"before all\"" = true
    · simp only [getResultListGo, h, if_true]
      exact ih st out
    · have hb : strStarts uid "\"before all\"" = false := by
        simpa using h
      simp only [getResultListGo, hb, Bool.false_eq_true, if_false]
      rw [ih, processTests_startedSpecs cf cfg cid pre (indent st cid uid)]

theorem getSuiteResult_startedSpecs (cf : Option String → String → String) (hz : Nat → String)
    (cfg : Config) (st : RState) (cid : String) (rd : RunnerData) :
    ((getSuiteResult cf hz cfg st cid rd).2).startedSpecs = st.startedSpecs := by
  by_cases hlen : rd.specData.suites.length = 0
  · simp [getSuiteResult, hlen]
  · simp only [getSuiteResult, if_neg hlen, getResultList]
    exact getResultListGo_startedSpecs cf cfg cid (getPhase st) rd.specData.suites st ""

theorem results_step_totalTally (cfg : Config) (st : RState) (c : String) (e : Event)
    (h : touchesTally c e = false) :
    totalTally ((step cfg st e).results c)
      = totalTally (st.results c) + (if isTerminalFor c e then 1 else 0) := by
  cases e with
  | startSpecs c' =>
    have hne : c ≠ c' := by
      by_contra hc
      simp [touchesTally, hc.symm] at h
    by_cases hs : st.startedSpecs <;>
      simp [step, hs, isTerminalFor, updTally, hne]
  | runnerStart c' sp =>
    have hne : c ≠ c' := by
      by_contra hc
      simp [touchesTally, hc.symm] at h
    simp [step, isTerminalFor, updTally, hne]
  | suiteStart c' u => simp [step, isTerminalFor]
  | suiteEnd c' => simp [step, isTerminalFor]
  | testPending c' =>
    by_cases hc : c' = c
    · subst hc
      by_cases hi : cfg.reportResultsInstantly <;>
        simp [step, hi, isTerminalFor, updTally, totalTally] <;> omega
    · have hne : c ≠ c' := fun hx => hc hx.symm
      by_cases hi : cfg.reportResultsInstantly <;>
        simp [step, hi, isTerminalFor, updTally, hne, hc]
  | testPass c' =>
    by_cases hc : c' = c
    · subst hc
      by_cases hi : cfg.reportResultsInstantly <;>
        simp [step, hi, isTerminalFor, updTally, totalTally] <;> omega
    · have hne : c ≠ c' := fun hx => hc hx.symm
      by_cases hi : cfg.reportResultsInstantly <;>
        simp [step, hi, isTerminalFor, updTally, hne, hc]
  | testFail c' =>
    by_cases hc : c' = c
    · subst hc
      by_cases hi : cfg.reportResultsInstantly <;>
        simp [step, hi, isTerminalFor, updTally, totalTally] <;> omega
    · have hne : c ≠ c' := fun hx => hc hx.symm
      by_cases hi : cfg.reportResultsInstantly <;>
        simp [step, hi, isTerminalFor, updTally, hne, hc]
  | testBroken c' =>
    by_cases hc : c' = c
    · subst hc
      by_cases hi : cfg.reportResultsInstantly <;>
        simp [step, hi, isTerminalFor, updTally, totalTally] <;> omega
    · have hne : c ≠ c' := fun hx => hc hx.symm
      by_cases hi : cfg.reportResultsInstantly <;>
        simp [step, hi, isTerminalFor, updTally, hne, hc]
  | testUnvalidated c' =>
    by_cases hc : c' = c
    · subst hc
      by_cases hi : cfg.reportResultsInstantly <;>
        simp [step, hi, isTerminalFor, updTally, totalTally] <;> omega
    · have hne : c ≠ c' := fun hx => hc hx.symm
      by_cases hi : cfg.reportResultsInstantly <;>
        simp [step, hi, isTerminalFor, updTally, hne, hc]
  | runnerEnd c' rd =>
    have hne : c ≠ c' := by
      by_contra hc
      simp [touchesTally, hc.symm] at h
    by_cases hi : cfg.reportResultsInstantly
    · simp [step, hi, isTerminalFor]
    · simp [step, hi, isTerminalFor,
        getSuiteResult_results_other cfg.colorFn cfg.humanize cfg st c' rd c hne]

theorem results_fold_totalTally (cfg : Config) (c : String) :
    ∀ (l : List Event) (st : RState), (∀ e ∈ l, touchesTally c e = false) →
      totalTally ((runEvents cfg st l).results c)
        = totalTally (st.results c) + (l.filter (isTerminalFor c)).length := by
  intro l
  induction l with
  | nil => intro st _; simp [runEvents]
  | cons e rest ih =>
    intro st h
    have he : touchesTally c e = false := h e (List.mem_cons_self e rest)
    have hrest : ∀ e' ∈ rest, touchesTally c e' = false :=
      fun e' hm => h e' (List.mem_cons_of_mem e hm)
    have hstep : runEvents cfg st (e :: rest) = runEvents cfg (step cfg st e) rest := by
      simp [runEvents]
    rw [hstep, ih (step cfg st e) hrest, results_step_totalTally cfg st c e he]
    by_cases ht : isTerminalFor c e <;> simp [List.filter_cons, ht]
    omega

/-- C1 (amended): for every session cid, after its last `runner:start` the
total tally passing+pending+failing+broken+unvalidated in `results[cid]`
equals the number of terminal test-state events received for that session
since that `runner:start`, each such event incrementing exactly one counter
by exactly one (retries arriving as new events are counted again) —
provided no `startSpecs` event carrying that cid and no `runner:end` event
for that cid follow that `runner:start`: an effective `startSpecs` resets
the tally, and a buffered-mode `runner:end` rendering backfills pending
counts for unset-state tests without a terminal event. -/
theorem c1_tally_counts_terminal_events (cfg : Config) (st0 : RState)
    (pre suf : List Event) (c sp : String)
    (h : ∀ e ∈ suf, touchesTally c e = false) :
    totalTally ((runEvents cfg st0 (pre ++ Event.runnerStart c sp :: suf)).results c)
      = (suf.filter (isTerminalFor c)).length := by
  have hsplit : runEvents cfg st0 (pre ++ Event.runnerStart c sp :: suf)
      = runEvents cfg (step cfg (runEvents cfg st0 pre) (Event.runnerStart c sp)) suf := by
    simp [runEvents, List.foldl_append]
  rw [hsplit, results_fold_totalTally cfg c suf _ h]
  have hz : (step cfg (runEvents cfg st0 pre) (Event.runnerStart c sp)).results c = zeroTally := by
    simp [step, updTally]
  rw [hz]
  simp [totalTally, zeroTally]

/-- C1 counterexample: after `runner:start` and one passing test, a first
`startSpecs` for the same session leaves the tally total at 0 while one
terminal test-state event arrived since the last `runner:start`; and a
buffered-mode `runner:end` whose host tree holds one unset-state test
raises the tally total to 2 with still only one terminal event and no
`startSpecs` at all — refuting the claim as stated on both paths. -/
theorem c1_counterexample :
    ¬ (totalTally ((runEvents cfg0 initialState
          [Event.runnerStart "0" "a.js", Event.testPass "0", Event.startSpecs "0"]).results "0")
        = ([Event.testPass "0", Event.startSpecs "0"].filter (isTerminalFor "0")).length) ∧
    ¬ (totalTally ((runEvents cfg0 initialState
          [Event.runnerStart "0" "a.js", Event.testPass "0",
            Event.runnerEnd "0"
              { sessionID := none
                capabilities := ⟨none, none, none, none, none, none, none, none, none, none, none⟩
                configHost := none
                specData := { suites := [("suite1", { title := "S", tests := [("t0", { title := "t", state := "" })] })], duration := 0 }
                failures := [] }]).results "0")
        = ([Event.testPass "0",
            Event.runnerEnd "0"
              { sessionID := none
                capabilities := ⟨none, none, none, none, none, none, none, none, none, none, none⟩
                configHost := none
                specData := { suites := [("suite1", { title := "S", tests := [("t0", { title := "t", state := "" })] })], duration := 0 }
                failures := [] }].filter (isTerminalFor "0")).length) := by
  constructor
  · decide
  · decide

/-- Witness for C1: a run with two terminal events after `runner:start`
ends with tally total 2. -/
theorem c1_tally_counts_terminal_events_witness :
    totalTally ((runEvents cfg0 initialState
        ([] ++ Event.runnerStart "0" "a.js" :: [Event.testPass "0", Event.testFail "0"])).results "0")
      = ([Event.testPass "0", Event.testFail "0"].filter (isTerminalFor "0")).length :=
  c1_tally_counts_terminal_events cfg0 initialState []
    [Event.testPass "0", Event.testFail "0"] "0" "a.js" (by decide)

theorem indents_suiteStart (cfg : Config) (st : RState) (c u : String) :
    (step cfg st (Event.suiteStart c u)).indents c = st.indents c + 1 := by
  simp [step, updInt]

theorem suiteIndents_suiteStart (cfg : Config) (st : RState) (c u : String) :
    (step cfg st (Event.suiteStart c u)).suiteIndents c u = st.indents c + 1 := by
  simp [step]

theorem indents_suiteEnd (cfg : Config) (st : RState) (c : String) :
    (step cfg st (Event.suiteEnd c)).indents c = st.indents c - 1 := by
  simp [step, updInt]

theorem balanced_indents (cfg : Config) (c : String) :
    ∀ {s : List Event}, BalancedSeq c s →
      ∀ st : RState, (runEvents cfg st s).indents c = st.indents c := by
  intro s hb
  induction hb with
  | nil => intro st; rfl
  | wrap u s hs ih =>
    intro st
    have hsplit : runEvents cfg st (Event.suiteStart c u :: (s ++ [Event.suiteEnd c]))
        = step cfg (runEvents cfg (step cfg st (Event.suiteStart c u)) s) (Event.suiteEnd c) := by
      simp [runEvents, List.foldl_append]
    rw [hsplit, indents_suiteEnd, ih, indents_suiteStart]
    ring
  | app s t hs ht ihs iht =>
    intro st
    have hsplit : runEvents cfg st (s ++ t) = runEvents cfg (runEvents cfg st s) t := by
      simp [runEvents, List.foldl_append]
    rw [hsplit, iht, ihs]

/-- C3: `suite:start` increments the session's indent depth by one and
records that value as the started suite's depth, `suite:end` decrements it
by one, and a balanced well-nested sequence of suite events of one session
leaves its indent depth unchanged. -/
theorem c3_suite_indent_balanced :
    (∀ (cfg : Config) (st : RState) (c u : String),
      (step cfg st (Event.suiteStart c u)).indents c = st.indents c + 1 ∧
      (step cfg st (Event.suiteStart c u)).suiteIndents c u = st.indents c + 1) ∧
    (∀ (cfg : Config) (st : RState) (c : String),
      (step cfg st (Event.suiteEnd c)).indents c = st.indents c - 1) ∧
    (∀ (cfg : Config) (c : String) (s : List Event), BalancedSeq c s →
      ∀ st : RState, (runEvents cfg st s).indents c = st.indents c) :=
  ⟨fun cfg st c u => ⟨indents_suiteStart cfg st c u, suiteIndents_suiteStart cfg st c u⟩,
   indents_suiteEnd,
   fun cfg c _ hb st => balanced_indents cfg c hb st⟩

/-- Witness for C3: one matched start and end pair restores the depth. -/
theorem c3_suite_indent_balanced_witness :
    (runEvents cfg0 initialState [Event.suiteStart "0" "s1", Event.suiteEnd "0"]).indents "0"
      = initialState.indents "0" :=
  c3_suite_indent_balanced.2.2 cfg0 "0" [Event.suiteStart "0" "s1", Event.suiteEnd "0"]
    (BalancedSeq.wrap "s1" [] BalancedSeq.nil) initialState

theorem startedSpecs_step_other (cfg : Config) (st : RState) (e : Event)
    (h : isStartSpecs e = false) :
    (step cfg st e).startedSpecs = st.startedSpecs := by
  cases e with
  | startSpecs c => simp [isStartSpecs] at h
  | runnerStart c sp => simp [step]
  | suiteStart c u => simp [step]
  | suiteEnd c => simp [step]
  | testPending c => by_cases hi : cfg.reportResultsInstantly <;> simp [step, hi]
  | testPass c => by_cases hi : cfg.reportResultsInstantly <;> simp [step, hi]
  | testFail c => by_cases hi : cfg.reportResultsInstantly <;> simp [step, hi]
  | testBroken c => by_cases hi : cfg.reportResultsInstantly <;> simp [step, hi]
  | testUnvalidated c => by_cases hi : cfg.reportResultsInstantly <;> simp [step, hi]
  | runnerEnd c rd =>
    by_cases hi : cfg.reportResultsInstantly <;>
      simp [step, hi, getSuiteResult_startedSpecs]

theorem startedSpecs_step_mono (cfg : Config) (st : RState) (e : Event)
    (h : st.startedSpecs = true) :
    (step cfg st e).startedSpecs = true := by
  cases e with
  | startSpecs c => simp [step, h]
  | runnerStart c sp => simp [step, h]
  | suiteStart c u => simp [step, h]
  | suiteEnd c => simp [step, h]
  | testPending c => by_cases hi : cfg.reportResultsInstantly <;> simp [step, hi, h]
  | testPass c => by_cases hi : cfg.reportResultsInstantly <;> simp [step, hi, h]
  | testFail c => by_cases hi : cfg.reportResultsInstantly <;> simp [step, hi, h]
  | testBroken c => by_cases hi : cfg.reportResultsInstantly <;> simp [step, hi, h]
  | testUnvalidated c => by_cases hi : cfg.reportResultsInstantly <;> simp [step, hi, h]
  | runnerEnd c rd =>
    by_cases hi : cfg.reportResultsInstantly <;>
      simp [step, hi, getSuiteResult_startedSpecs, h]

theorem startedSpecs_fold_mono (cfg : Config) :
    ∀ (l : List Event) (st : RState), st.startedSpecs = true →
      (runEvents cfg st l).startedSpecs = true := by
  intro l
  induction l with
  | nil => intro st h; exact h
  | cons e rest ih =>
    intro st h
    have hsplit : runEvents cfg st (e :: rest) = runEvents cfg (step cfg st e) rest := by
      simp [runEvents]
    rw [hsplit]
    exact ih _ (startedSpecs_step_mono cfg st e h)

theorem startedSpecs_fold_none (cfg : Config) :
    ∀ (l : List Event) (st : RState), (∀ e ∈ l, isStartSpecs e = false) →
      (runEvents cfg st l).startedSpecs = st.startedSpecs := by
  intro l
  induction l with
  | nil => intro st _; rfl
  | cons e rest ih =>
    intro st h
    have hsplit : runEvents cfg st (e :: rest) = runEvents cfg (step cfg st e) rest := by
      simp [runEvents]
    rw [hsplit, ih _ (fun e' hm => h e' (List.mem_cons_of_mem e hm))]
    exact startedSpecs_step_other cfg st e (h e (List.mem_cons_self e rest))

/-- C10: the `startedSpecs` phase flag starts false, is set by a
`startSpecs` event, is never reset afterwards (a later `startSpecs` is a
state no-op), and `getPhase` renders the testcase tag before the first
`startSpecs` event of a run and the spec tag after it. -/
theorem c10_startedSpecs_monotone :
    initialState.startedSpecs = false ∧
    (∀ (cfg : Config) (st : RState) (e : Event), st.startedSpecs = true →
      (step cfg st e).startedSpecs = true) ∧
    (∀ (cfg : Config) (st : RState) (c : String),
      (step cfg st (Event.startSpecs c)).startedSpecs = true) ∧
    (∀ (cfg : Config) (st : RState) (c : String), st.startedSpecs = true →
      step cfg st (Event.startSpecs c) = st) ∧
    (∀ (cfg : Config) (l : List Event), (∀ e ∈ l, isStartSpecs e = false) →
      getPhase (runEvents cfg initialState l) = "[TESTCASE] ") ∧
    (∀ (cfg : Config) (l t : List Event) (c : String),
      getPhase (runEvents cfg initialState (l ++ Event.startSpecs c :: t)) = "[SPEC] ") := by
  refine ⟨rfl, startedSpecs_step_mono, ?_, ?_, ?_, ?_⟩
  · intro cfg st c
    by_cases hs : st.startedSpecs <;> simp [step, hs]
  · intro cfg st c h
    simp [step, h]
  · intro cfg l h
    rw [getPhase, startedSpecs_fold_none cfg l initialState h]
    rfl
  · intro cfg l t c
    have hsplit : runEvents cfg initialState (l ++ Event.startSpecs c :: t)
        = runEvents cfg (step cfg (runEvents cfg initialState l) (Event.startSpecs c)) t := by
      simp [runEvents, List.foldl_append]
    have hset : (step cfg (runEvents cfg initialState l) (Event.startSpecs c)).startedSpecs = true := by
      by_cases hs : (runEvents cfg initialState l).startedSpecs <;> simp [step, hs]
    rw [hsplit, getPhase, startedSpecs_fold_mono cfg t _ hset]
    rfl

/-- Witness for C10: the phase is the testcase tag after a run without
`startSpecs`, and a `startSpecs` arriving with the flag already set leaves
the whole state unchanged. -/
theorem c10_startedSpecs_monotone_witness :
    getPhase (runEvents cfg0 initialState [Event.runnerStart "0" "a.js"]) = "[TESTCASE] " ∧
    step cfg0 { initialState with startedSpecs := true } (Event.startSpecs "0")
      = { initialState with startedSpecs := true } :=
  ⟨c10_startedSpecs_monotone.2.2.2.2.1 cfg0 [Event.runnerStart "0" "a.js"] (by decide),
   c10_startedSpecs_monotone.2.2.2.1 cfg0 { initialState with startedSpecs := true } "0" rfl⟩

theorem getSummaryGo_true (cf : Option String → String → String) (hz : Nat → String)
    (duration : Nat) (pre : String) :
    ∀ l : List (String × Nat),
      getSummaryGo cf hz duration pre true l
        = strConcat ((l.filter (fun p => p.2 != 0)).map (fun p => summaryLine cf pre p "")) := by
  intro l
  induction l with
  | nil => rfl
  | cons p rest ih =>
    obtain ⟨s, n⟩ := p
    by_cases h : n = 0
    · simp [getSummaryGo, h, ih, List.filter_cons]
    · simp [getSummaryGo, h, ih, List.filter_cons, summaryLine, strConcat]

theorem getSummaryGo_false (cf : Option String → String → String) (hz : Nat → String)
    (duration : Nat) (pre : String) :
    ∀ l : List (String × Nat),
      getSummaryGo cf hz duration pre false l
        = match l.filter (fun p => p.2 != 0) with
          | [] => ""
          | first :: rest =>
            summaryLine cf pre first (" (" ++ hz duration ++ ")")
              ++ strConcat (rest.map (fun p => summaryLine cf pre p "")) := by
  intro l
  induction l with
  | nil => rfl
  | cons p rest ih =>
    obtain ⟨s, n⟩ := p
    by_cases h : n = 0
    · simp only [getSummaryGo, h, if_pos rfl, List.filter_cons]
      simp [ih, h]
    · simp [getSummaryGo, h, List.filter_cons, getSummaryGo_true, summaryLine]

/-- C7: a summary block renders exactly the non-zero-count states, with
the humanized duration suffix attached to the first rendered line and to
no other; if every count is zero the block is empty and no duration
appears. -/
theorem c7_summary_duration_once (cf : Option String → String → String) (hz : Nat → String)
    (states : List (String × Nat)) (duration : Nat) (pre : String) :
    getSummary cf hz states duration pre
      = match states.filter (fun p => p.2 != 0) with
        | [] => ""
        | first :: rest =>
          summaryLine cf pre first (" (" ++ hz duration ++ ")")
            ++ strConcat (rest.map (fun p => summaryLine cf pre p "")) :=
  getSummaryGo_false cf hz duration pre states

/-- C8: a rendered summary line for the pending bucket carries the label
skipped instead of the state name, both in first position (with the
duration suffix) and in any later position, while every other state is
labelled by its own name. -/
theorem c8_pending_label_skipped (cf : Option String → String → String) (hz : Nat → String)
    (duration : Nat) (pre : String) :
    (∀ (n : Nat) (rest : List (String × Nat)), n ≠ 0 →
      getSummary cf hz (("pending", n) :: rest) duration pre
        = pre ++ " " ++ cf (getColor "pending") (toString n) ++ " "
            ++ cf (getColor "pending") "skipped" ++ (" (" ++ hz duration ++ ")") ++ "\n"
          ++ getSummaryGo cf hz duration pre true rest) ∧
    (∀ (s : String) (n : Nat) (rest : List (String × Nat)), s ≠ "pending" → n ≠ 0 →
      getSummary cf hz ((s, n) :: rest) duration pre
        = pre ++ " " ++ cf (getColor s) (toString n) ++ " " ++ cf (getColor s) s
            ++ (" (" ++ hz duration ++ ")") ++ "\n"
          ++ getSummaryGo cf hz duration pre true rest) ∧
    (∀ (n : Nat) (rest : List (String × Nat)), n ≠ 0 →
      getSummaryGo cf hz duration pre true (("pending", n) :: rest)
        = pre ++ " " ++ cf (getColor "pending") (toString n) ++ " "
            ++ cf (getColor "pending") "skipped" ++ "\n"
          ++ getSummaryGo cf hz duration pre true rest) := by
  refine ⟨?_, ?_, ?_⟩
  · intro n rest hn
    simp [getSummary, getSummaryGo, hn]
  · intro s n rest hs hn
    simp [getSummary, getSummaryGo, hn, hs]
  · intro n rest hn
    simp [getSummaryGo, hn]

/-- Witness for C8: a pending bucket with count 2 renders with the
skipped label and the duration suffix. -/
theorem c8_pending_label_skipped_witness :
    getSummary cf0 hz0 [("pending", 2)] 1000 "[SPEC] "
      = "[SPEC] " ++ " " ++ cf0 (getColor "pending") (toString 2) ++ " "
          ++ cf0 (getColor "pending") "skipped" ++ (" (" ++ hz0 1000 ++ ")") ++ "\n"
        ++ getSummaryGo cf0 hz0 1000 "[SPEC] " true [] :=
  (c8_pending_label_skipped cf0 hz0 1000 "[SPEC] ").1 2 [] (by decide)

theorem getResultListGo_filter (cf : Option String → String → String) (cfg : Config)
    (cid pre : String) :
    ∀ (suites : List (String × Suite)) (st : RState) (out : String),
      getResultListGo cf cfg cid pre st suites out
        = getResultListGo cf cfg cid pre st
            (suites.filter (fun p => !(strStarts p.1 "\"before all\""))) out := by
  intro suites
  induction suites with
  | nil => intro st out; rfl
  | cons p rest ih =>
    obtain ⟨uid, sp⟩ := p
    intro st out
    by_cases h : strStarts uid "\"before all\"" = true
    · simp only [getResultListGo, h, if_true, List.filter_cons, Bool.not_true,
        Bool.false_eq_true, if_false]
      exact ih st out
    · have hb : strStarts uid "\"before all\"" = false := by
        simpa using h
      simp only [getResultListGo, hb, Bool.false_eq_true, if_false, List.filter_cons,
        Bool.not_false, if_true]
      exact ih _ _

theorem processTests_pending (cf : Option String → String → String) (cfg : Config)
    (cid pre ind : String) :
    ∀ (tests : List (String × TestRec)) (st : RState) (out : String),
      ((processTests cf cfg cid pre ind st tests out).1.results cid).pending
        = (st.results cid).pending + (tests.filter (fun t => t.2.state == "")).length := by
  intro tests
  induction tests with
  | nil => intro st out; simp [processTests]
  | cons t rest ih =>
    obtain ⟨uid, test⟩ := t
    intro st out
    by_cases h : test.state = ""
    · simp only [processTests, h, if_pos rfl, List.filter_cons]
      rw [ih]
      simp [updTally, h]
      omega
    · simp only [processTests, h, if_neg h, List.filter_cons]
      rw [ih]
      simp [h]

/-- C4 (amended): a suite whose uid starts with the quoted words before
all is skipped entirely by `getResultList` — it contributes nothing to the
rendered output and its tests are not counted, so the session's pending
tally is not incremented for its unset-state tests; only displayed suites
count their unset-state tests as pending. -/
theorem c4_before_all_suites_skipped (cf : Option String → String → String) (cfg : Config)
    (st : RState) (cid : String) (suites : List (String × Suite)) (pre : String) :
    getResultList cf cfg st cid suites pre
      = getResultList cf cfg st cid
          (suites.filter (fun p => !(strStarts p.1 "\"before all\""))) pre ∧
    (∀ (uid : String) (sp : Suite), strStarts uid "\"before all\"" = true →
      getResultList cf cfg st cid [(uid, sp)] pre = ("", st)) ∧
    (∀ (uid : String) (sp : Suite), strStarts uid "\"before all\"" = false →
      ((getResultList cf cfg st cid [(uid, sp)] pre).2.results cid).pending
        = (st.results cid).pending + (sp.tests.filter (fun t => t.2.state == "")).length) := by
  refine ⟨getResultListGo_filter cf cfg cid pre suites st "", ?_, ?_⟩
  · intro uid sp h
    simp [getResultList, getResultListGo, h]
  · intro uid sp h
    simp only [getResultList, getResultListGo, h, Bool.false_eq_true, if_false,
      Bool.not_false, if_true]
    exact processTests_pending cf cfg cid pre (indent st cid uid) sp.tests st _

/-- C4 counterexample: a before-all suite holding one unset-state test
leaves the session's pending tally at 0; the claim asserts it would be
incremented to 1. -/
theorem c4_counterexample :
    ¬ (((getResultList cf0 cfg0 initialState "0"
          [("\"before all\" hook",
            { title := "hook", tests := [("t0", { title := "t", state := "" })] })]
          "").2.results "0").pending
        = (initialState.results "0").pending + 1) := by
  decide

/-- Witness for C4: a before-all suite renders nothing and changes no
state, while a displayed suite with one unset-state test increments the
pending tally by one. -/
theorem c4_before_all_suites_skipped_witness :
    getResultList cf0 cfg0 initialState "0"
        [("\"before all\" hook",
          { title := "hook", tests := [("t0", { title := "t", state := "" })] })]
        ""
      = ("", initialState) ∧
    ((getResultList cf0 cfg0 initialState "0"
        [("suite1", { title := "S", tests := [("t0", { title := "t", state := "" })] })] "").2.results "0").pending
      = (initialState.results "0").pending
          + ([("t0", ({ title := "t", state := "" } : TestRec))].filter (fun t => t.2.state == "")).length :=
  ⟨(c4_before_all_suites_skipped cf0 cfg0 initialState "0" [] "").2.1 "\"before all\" hook"
      { title := "hook", tests := [("t0", { title := "t", state := "" })] } (by decide),
   (c4_before_all_suites_skipped cf0 cfg0 initialState "0" [] "").2.2 "suite1"
      { title := "S", tests := [("t0", { title := "t", state := "" })] } (by decide)⟩

/-- C6: when the suite map of the runner's spec data is empty,
`getSuiteResult` returns the empty string and leaves the reporter state
untouched — no separator rule, session banner or summary is produced. -/
theorem c6_empty_suites_no_output (cf : Option String → String → String) (hz : Nat → String)
    (cfg : Config) (st : RState) (cid : String) (rd : RunnerData)
    (h : rd.specData.suites = []) :
    getSuiteResult cf hz cfg st cid rd = ("", st) := by
  simp [getSuiteResult, h]

/-- Witness for C6: a concrete runner with an empty suite map produces
the empty string from the initial state. -/
theorem c6_empty_suites_no_output_witness :
    getSuiteResult cf0 hz0 cfg0 initialState "0"
        { sessionID := none
          capabilities := ⟨none, none, none, none, none, none, none, none, none, none, none⟩
          configHost := none
          specData := { suites := [], duration := 0 }
          failures := [] }
      = ("", initialState) :=
  c6_empty_suites_no_output cf0 hz0 cfg0 initialState "0"
    { sessionID := none
      capabilities := ⟨none, none, none, none, none, none, none, none, none, none, none⟩
      configHost := none
      specData := { suites := [], duration := 0 }
      failures := [] } rfl

/-- C9: `cleanStack` replaces the stack of an error carrying a stack
string by exactly those of its lines that do not match the
internal-tooling and separator pattern and start with the four-space call
frame marker, joined by newlines, leaving the other fields unchanged; a
stack of one dependency-directory frame and one ordinary frame keeps only
the ordinary frame. -/
theorem c9_cleanStack_filters_frames :
    (∀ (e : ErrRec) (s : String), e.stack = some s →
      cleanStack e = { e with stack := some (String.intercalate "\n"
        ((splitLines s).filter (fun l => !(stacktraceFilterTest l) && strStarts l "    at "))) }) ∧
    cleanStack
        { message := "m"
          stack := some ("    at helper (/proj/node_modules/lib/index.js:3:5)\n"
            ++ "    at ordinary (/proj/test/spec.js:10:5)")
          matcherName := none }
      = { message := "m"
          stack := some "    at ordinary (/proj/test/spec.js:10:5)"
          matcherName := none } := by
  constructor
  · intro e s h
    obtain ⟨m, stk, mn⟩ := e
    cases h
    rfl
  · decide

/-- Witness for C9: the general conjunct applied to a concrete error. -/
theorem c9_cleanStack_filters_frames_witness :
    cleanStack { message := "m", stack := some "    at f (spec.js:1:1)", matcherName := none }
      = { message := "m", stack := some (String.intercalate "\n"
          ((splitLines "    at f (spec.js:1:1)").filter
            (fun l => !(stacktraceFilterTest l) && strStarts l "    at "))), matcherName := none } :=
  c9_cleanStack_filters_frames.1
    { message := "m", stack := some "    at f (spec.js:1:1)", matcherName := none }
    "    at f (spec.js:1:1)" rfl
